import Mathlib

/-!
Verification of the headless map-export pipeline of `src/tiled/main.cpp`
(LuaxY/MapEditor).  The development shallowly embeds the command-line
handler, the writer-resolution loop and the export pipeline of `main`,
together with the Qt string and file-name primitives they rely on
(`QFileInfo::completeSuffix`, `QStringList::contains` and
`QStringList::filter` with `Qt::CaseInsensitive`).
-/

set_option autoImplicit false

/-! ### Qt string primitives, on explicit character lists -/

/-- ASCII lower-casing of a string, as a character list.  Models the
case-insensitive comparisons of `QString` for the ASCII range used by
format names and suffixes. -/
def lowerStr (s : String) : List Char :=
  s.data.map Char.toLower

/-- Boolean list prefix test. -/
def isPrefixOfCL : List Char → List Char → Bool
  | [], _ => true
  | _ :: _, [] => false
  | a :: as, b :: bs => a = b && isPrefixOfCL as bs

/-- Boolean list infix (contiguous substring) test. -/
def isInfixOfCL (needle : List Char) : List Char → Bool
  | [] => isPrefixOfCL needle []
  | c :: rest => isPrefixOfCL needle (c :: rest) || isInfixOfCL needle rest

/-- Case-insensitive substring test: models
`QString::contains(needle, Qt::CaseInsensitive)`. -/
def containsCI (hay needle : String) : Bool :=
  isInfixOfCL (lowerStr needle) (lowerStr hay)

/-- Case-insensitive whole-string equality: models
`QString::compare(a, b, Qt::CaseInsensitive) == 0`. -/
def eqCI (a b : String) : Bool :=
  lowerStr a == lowerStr b

/-- Models `QStringList::contains(f, Qt::CaseInsensitive)`: some element
equals `f` up to case. -/
def containsStrCI (xs : List String) (f : String) : Bool :=
  xs.any (fun p => eqCI p f)

/-- Models `QStringList::filter(needle, Qt::CaseInsensitive)`: keep the
elements containing `needle` as a case-insensitive substring. -/
def filterCI (xs : List String) (needle : String) : List String :=
  xs.filter (fun p => containsCI p needle)

/-! ### `QFileInfo::completeSuffix` -/

/-- The file-name component of a path: everything after the last
directory separator (models `QFileInfo::fileName`). -/
def fileNameOf (path : String) : List Char :=
  ((path.data.reverse.takeWhile (fun c => c ≠ '/')).reverse)

/-- Everything after the first dot of a character list; empty when there
is no dot. -/
def afterFirstDot : List Char → List Char
  | [] => []
  | c :: cs => if c = '.' then cs else afterFirstDot cs

/-- Models `QFileInfo(path).completeSuffix()`: the complete dot-suffix of
the file name, i.e. everything after the first dot of the last path
component (e.g. `tmx.bak` for `level1.tmx.bak`). -/
def completeSuffix (path : String) : String :=
  ⟨afterFirstDot (fileNameOf path)⟩

/-! ### Data model: writers, maps, events -/

/-- One registered output-format plugin, borrowed from the plugin
registry: its declared name-filter patterns plus an identity used to
track which writer was chosen and invoked.  Models
`Tiled::MapWriterInterface`. -/
structure MapWriterInterface where
  id : Nat
  nameFilters : List String
  deriving DecidableEq, Repr

/-- A deserialized map value: an identity for its own resource and the
resources of the tile sets it owns.  Models `Tiled::Map` at the
granularity the export pipeline observes (exists, can be written, owns
tile sets, can be released). -/
structure TiledMap where
  id : Nat
  tilesets : List Nat
  deriving DecidableEq, Repr

/-- The two failure modes of writer resolution in `main`. -/
inductive ResolveError where
  | ambiguousFormat
  | noWriterFound
  deriving DecidableEq, Repr

/-- Observable events of one `main` invocation: diagnostic output, the
reader call, the writer call, resource releases, and GUI startup. -/
inductive Ev where
  | warn (msg : String)
  | readSource (path : String)
  | writeTarget (writerId : Nat) (path : String)
  | releaseTileset (ts : Nat)
  | releaseMap (m : Nat)
  | gui
  deriving DecidableEq, Repr

/-- External collaborators of the export pipeline: the writer registry
(in registry iteration order), the reader outcome per source path and
the writer outcome per (writer, map, target). -/
structure ExportEnv where
  writers : List MapWriterInterface
  readMap : String → Option TiledMap
  writeOk : Nat → TiledMap → String → Bool

/-! ### Diagnostic messages of `main` -/

def exportSyntaxMsg : String :=
  "Export syntax is --export-map [format] <tmx file> <target file>"

def ambiguousMsg : String :=
  "Non-unique file extension. Can\x27t determine correct export format."

def noExporterMsg : String :=
  "No exporter found for target file."

def loadFailMsg : String :=
  "Failed to load source map."

def writeFailMsg : String :=
  "Failed to export map to target file."

/-- The diagnostic message reported for each resolution failure. -/
def resolveErrMsg : ResolveError → String
  | .ambiguousFormat => ambiguousMsg
  | .noWriterFound => noExporterMsg

/-- A capability matches on the filter path iff the filter string occurs
case-insensitively among its declared name filters
(`writer->nameFilters().contains(*filter, Qt::CaseInsensitive)`). -/
def filterMatch (w : MapWriterInterface) (f : String) : Bool :=
  containsStrCI w.nameFilters f

/-- A capability matches on the suffix path iff filtering its name
filters by the suffix yields a non-empty result
(`!writer->nameFilters().filter(suffix, Qt::CaseInsensitive).isEmpty()`). -/
def suffixMatch (w : MapWriterInterface) (suffix : String) : Bool :=
  !(filterCI w.nameFilters suffix).isEmpty

/-! ### Writer resolution

The `foreach` loop of `main` over the registry, with `chosen` the
accumulated `chosenWriter` pointer (initially null).  With a filter, a
capability whose name filters contain the filter string
case-insensitively overwrites `chosen`; without a filter, a capability
whose name filters, filtered by the complete suffix, are non-empty is a
match, and a second match returns the ambiguity error at once. -/

def resolveWriter (filter : Option String) (suffix : String) :
    List MapWriterInterface → Option MapWriterInterface →
    Except ResolveError MapWriterInterface
  | [], none => .error .noWriterFound
  | [], some w => .ok w
  | w :: ws, chosen =>
    match filter with
    | some f =>
      if filterMatch w f then
        resolveWriter filter suffix ws (some w)
      else
        resolveWriter filter suffix ws chosen
    | none =>
      if suffixMatch w suffix then
        match chosen with
        | some _ => .error .ambiguousFormat
        | none => resolveWriter none suffix ws (some w)
      else
        resolveWriter none suffix ws chosen

/-! ### Export pipeline -/

/-- The export pipeline of `main` after the filter/source/target
arguments have been extracted: resolve a writer, read the source map,
write the target, release the map and its tile sets, and report the
process exit code together with the trace of observable events. -/
def exportRun (env : ExportEnv) (filter : Option String)
    (sourceFile targetFile : String) : Nat × List Ev :=
  match resolveWriter filter (completeSuffix targetFile) env.writers none with
  | .error e => (1, [Ev.warn (resolveErrMsg e)])
  | .ok w =>
    match env.readMap sourceFile with
    | none => (1, [Ev.readSource sourceFile, Ev.warn loadFailMsg])
    | some map =>
      let success := env.writeOk w.id map targetFile
      let evs := [Ev.readSource sourceFile, Ev.writeTarget w.id targetFile]
        ++ map.tilesets.map Ev.releaseTileset ++ [Ev.releaseMap map.id]
      if success then (0, evs) else (1, evs ++ [Ev.warn writeFailMsg])

/-- The `--export-map` branch of `main`: fewer than two positional
arguments is a syntax error; with exactly two they are source and
target; with more, the argument at index 0 is the format filter and the
arguments at indices 1 and 2 are source and target (any further
arguments are not read). -/
def exportMode (env : ExportEnv) (filesToOpen : List String) : Nat × List Ev :=
  match filesToOpen with
  | [] => (1, [Ev.warn exportSyntaxMsg])
  | [_] => (1, [Ev.warn exportSyntaxMsg])
  | [sourceFile, targetFile] => exportRun env none sourceFile targetFile
  | f :: sourceFile :: targetFile :: _ => exportRun env (some f) sourceFile targetFile

/-! ### Command-line handler -/

/-- The state of `CommandLineHandler` (its four flags), together with
the positional arguments collected by the base parser and the lines it
printed. -/
structure CLState where
  quit : Bool
  showedVersion : Bool
  disableOpenGL : Bool
  exportMap : Bool
  filesToOpen : List String
  printed : List String
  deriving DecidableEq, Repr

/-- The handler state after the `CommandLineHandler` constructor. -/
def initHandler : CLState :=
  { quit := false, showedVersion := false, disableOpenGL := false
    exportMap := false, filesToOpen := [], printed := [] }

/-- `CommandLineHandler::showVersion`: on the first call prints the
application name and version and requests quit; later calls change
nothing. -/
def showVersion (appName appVersion : String) (s : CLState) : CLState :=
  if !s.showedVersion then
    { s with showedVersion := true
             printed := s.printed ++ [appName ++ " " ++ appVersion]
             quit := true }
  else s

/-- `CommandLineHandler::justQuit`. -/
def justQuit (s : CLState) : CLState :=
  { s with quit := true }

/-- `CommandLineHandler::setDisableOpenGL`. -/
def setDisableOpenGL (s : CLState) : CLState :=
  { s with disableOpenGL := true }

/-- `CommandLineHandler::setExportMap`. -/
def setExportMap (s : CLState) : CLState :=
  { s with exportMap := true }

/-- True for the tokens registered as options by the
`CommandLineHandler` constructor. -/
def knownFlag (tok : String) : Bool :=
  tok == "-v" || tok == "--version" || tok == "--quit" ||
    tok == "--disable-opengl" || tok == "--export-map"

/-- True for tokens that start with a dash, i.e. that the parser treats
as option flags rather than positional file arguments. -/
def dashFlag (tok : String) : Bool :=
  match tok.data with
  | '-' :: _ => true
  | _ => false

/-- Modelled from the spec: the option-dispatch loop of
`CommandLineParser::parse` (the file `commandlineparser.cpp` is not part
of this repository snapshot; `main.cpp` only registers the handlers).
Each recognized flag token invokes its registered boolean-switch
handler, any other token starting with a dash makes parsing fail with
the malformed-arguments condition (modelled as `none`), and every
remaining token is collected in order as a positional file argument. -/
def parseTokens (appName appVersion : String) :
    CLState → List String → Option CLState
  | s, [] => some s
  | s, tok :: rest =>
    if tok == "-v" || tok == "--version" then
      parseTokens appName appVersion (showVersion appName appVersion s) rest
    else if tok == "--quit" then
      parseTokens appName appVersion (justQuit s) rest
    else if tok == "--disable-opengl" then
      parseTokens appName appVersion (setDisableOpenGL s) rest
    else if tok == "--export-map" then
      parseTokens appName appVersion (setExportMap s) rest
    else if dashFlag tok then
      none
    else
      parseTokens appName appVersion
        { s with filesToOpen := s.filesToOpen ++ [tok] } rest

/-! ### `main` -/

/-- The body of `main` after application bootstrap, over the argument
list that follows the program name: parse the command line (a parse
failure returns 0), return 0 when quit was requested, run the export
pipeline when export mode was requested, and otherwise start the GUI
shell (abstracted as the event `Ev.gui` with exit code `guiCode`). -/
def tiledMain (env : ExportEnv) (appName appVersion : String)
    (guiCode : Nat) (args : List String) : Nat × List Ev :=
  match parseTokens appName appVersion initHandler args with
  | none => (0, [])
  | some cl =>
    if cl.quit then (0, [])
    else if cl.exportMap then exportMode env cl.filesToOpen
    else (guiCode, [Ev.gui])

/-! ### Lemmas about writer resolution -/

/-- On the suffix path, once a writer is chosen, any later match aborts
the scan with the ambiguity error. -/
lemma resolve_suffix_second_match (suffix : String) :
    ∀ (ws : List MapWriterInterface) (w0 : MapWriterInterface),
      (∃ w ∈ ws, suffixMatch w suffix = true) →
      resolveWriter none suffix ws (some w0) = .error .ambiguousFormat := by
  intro ws
  induction ws with
  | nil => rintro w0 ⟨w, hw, -⟩; cases hw
  | cons a as ih =>
    rintro w0 ⟨w, hw, hmatch⟩
    rcases List.mem_cons.mp hw with rfl | hw
    · simp [resolveWriter, hmatch]
    · by_cases ha : suffixMatch a suffix = true
      · simp [resolveWriter, ha]
      · simp only [resolveWriter, ha]
        exact ih w0 ⟨w, hw, hmatch⟩

/-- On the suffix path, when no writer matches, the already-chosen
writer (if any) is returned, otherwise resolution fails with
`noWriterFound`. -/
lemma resolve_suffix_no_match (suffix : String) :
    ∀ (ws : List MapWriterInterface) (c : Option MapWriterInterface),
      (∀ w ∈ ws, suffixMatch w suffix = false) →
      resolveWriter none suffix ws c =
        (match c with
         | none => .error .noWriterFound
         | some w => .ok w) := by
  intro ws
  induction ws with
  | nil => intro c _; cases c <;> rfl
  | cons a as ih =>
    intro c hnone
    have ha : suffixMatch a suffix = false := hnone a (List.mem_cons_self a as)
    simp only [resolveWriter, ha]
    exact ih c (fun w hw => hnone w (List.mem_cons_of_mem a hw))

/-- On the filter path, when no writer matches the filter, the
already-chosen writer (if any) is returned, otherwise resolution fails
with `noWriterFound`. -/
lemma resolve_filter_no_match (f suffix : String) :
    ∀ (ws : List MapWriterInterface) (c : Option MapWriterInterface),
      (∀ w ∈ ws, filterMatch w f = false) →
      resolveWriter (some f) suffix ws c =
        (match c with
         | none => .error .noWriterFound
         | some w => .ok w) := by
  intro ws
  induction ws with
  | nil => intro c _; cases c <;> rfl
  | cons a as ih =>
    intro c hnone
    have ha : filterMatch a f = false := hnone a (List.mem_cons_self a as)
    simp only [resolveWriter, ha]
    exact ih c (fun w hw => hnone w (List.mem_cons_of_mem a hw))

/-- On the suffix path, two matching writers anywhere in the registry
make resolution fail with the ambiguity error, whatever follows the
second match. -/
lemma resolve_suffix_ambiguous (suffix : String)
    (pre mid rest : List MapWriterInterface) (w1 w2 : MapWriterInterface)
    (h1 : suffixMatch w1 suffix = true) (h2 : suffixMatch w2 suffix = true) :
    resolveWriter none suffix (pre ++ w1 :: mid ++ w2 :: rest) none =
      .error .ambiguousFormat := by
  induction pre with
  | nil =>
    simp only [List.nil_append, resolveWriter, h1]
    exact resolve_suffix_second_match suffix _ w1
      ⟨w2, by simp, h2⟩
  | cons a as ih =>
    by_cases ha : suffixMatch a suffix = true
    · simp only [List.cons_append, resolveWriter, ha, if_true]
      exact resolve_suffix_second_match suffix _ a
        ⟨w1, by simp, h1⟩
    · simp only [List.cons_append, resolveWriter, ha]
      simpa using ih

/-- On the filter path, the last matching writer in registry order is
the one returned, whatever the initially chosen writer was. -/
lemma resolve_filter_last (f suffix : String) :
    ∀ (ws rest : List MapWriterInterface) (w : MapWriterInterface)
      (c : Option MapWriterInterface),
      filterMatch w f = true →
      (∀ w' ∈ rest, filterMatch w' f = false) →
      resolveWriter (some f) suffix (ws ++ w :: rest) c = .ok w := by
  intro ws
  induction ws with
  | nil =>
    intro rest w c hw hrest
    simp only [List.nil_append, resolveWriter, hw, if_true]
    exact resolve_filter_no_match f suffix rest (some w) hrest
  | cons a as ih =>
    intro rest w c hw hrest
    by_cases ha : filterMatch a f = true
    · simp only [List.cons_append, resolveWriter, ha, if_true]
      exact ih rest w (some a) hw hrest
    · simp only [List.cons_append, resolveWriter, ha]
      simpa using ih rest w c hw hrest

/-- Everything after the first dot, for a list starting with a dot-free
block followed by a dot. -/
lemma afterFirstDot_append (b : List Char) :
    ∀ (a : List Char), '.' ∉ a → afterFirstDot (a ++ '.' :: b) = b := by
  intro a
  induction a with
  | nil => intro _; simp [afterFirstDot]
  | cons c cs ih =>
    intro h
    have hc : ¬c = '.' := fun hh => h (by simp [hh])
    simp only [List.cons_append, afterFirstDot, if_neg hc]
    exact ih (fun hm => h (List.mem_cons_of_mem _ hm))

/-- A path without directory separators is its own file name. -/
lemma fileNameOf_no_slash (l : List Char) (h : '/' ∉ l) : fileNameOf ⟨l⟩ = l := by
  unfold fileNameOf
  have hall : l.reverse.takeWhile (fun c => c ≠ '/') = l.reverse := by
    rw [List.takeWhile_eq_self_iff]
    intro c hc
    simp only [ne_eq, decide_eq_true_eq]
    exact fun hh => h (by simpa [hh] using List.mem_reverse.mp hc)
  rw [show (⟨l⟩ : String).data = l from rfl, hall, List.reverse_reverse]

/-- The suffix argument is irrelevant on the filter path. -/
lemma resolve_filter_suffix_irrelevant (f s1 s2 : String) :
    ∀ (ws : List MapWriterInterface) (c : Option MapWriterInterface),
      resolveWriter (some f) s1 ws c = resolveWriter (some f) s2 ws c := by
  intro ws
  induction ws with
  | nil => intro c; cases c <;> rfl
  | cons a as ih =>
    intro c
    by_cases ha : filterMatch a f = true <;>
      simp only [resolveWriter, ha, if_true, Bool.false_eq_true, if_false] <;>
      apply ih

/-! ### Claim theorems -/

/-- C1: with no filter, resolution fails with the ambiguity error as
soon as a second capability matches the target suffix — the scan does
not continue past the second match (the trailing registry segment is
arbitrary) and never falls back to the first match; with a filter, when
several capabilities match the filter string, the last matching
capability in registry iteration order is the one chosen. -/
theorem c1_resolution_asymmetry :
    (∀ (suffix : String) (pre mid rest : List MapWriterInterface)
        (w1 w2 : MapWriterInterface),
        suffixMatch w1 suffix = true → suffixMatch w2 suffix = true →
        resolveWriter none suffix (pre ++ w1 :: mid ++ w2 :: rest) none =
          .error .ambiguousFormat) ∧
    (∀ (f suffix : String) (ws rest : List MapWriterInterface)
        (w : MapWriterInterface),
        filterMatch w f = true →
        (∀ w' ∈ rest, filterMatch w' f = false) →
        resolveWriter (some f) suffix (ws ++ w :: rest) none = .ok w) := by
  constructor
  · intro suffix pre mid rest w1 w2 h1 h2
    exact resolve_suffix_ambiguous suffix pre mid rest w1 w2 h1 h2
  · intro f suffix ws rest w hw hrest
    exact resolve_filter_last f suffix ws rest w none hw hrest

/-- Witness for C1 at concrete registries: two suffix matches for `tmx`
followed by a third writer give the ambiguity error; with filter `x`,
the second of two matching writers wins over the first. -/
theorem c1_resolution_asymmetry_witness :
    resolveWriter none "tmx"
      [⟨1, ["Tmx files (*.tmx)"]⟩, ⟨2, ["Also tmx"]⟩, ⟨3, ["Json files (*.json)"]⟩]
      none = .error .ambiguousFormat ∧
    resolveWriter (some "x") "zzz"
      [⟨1, ["X"]⟩, ⟨2, ["x"]⟩, ⟨3, ["Json files (*.json)"]⟩] none =
      .ok ⟨2, ["x"]⟩ := by
  constructor
  · exact c1_resolution_asymmetry.1 "tmx" [] []
      [⟨3, ["Json files (*.json)"]⟩] ⟨1, ["Tmx files (*.tmx)"]⟩
      ⟨2, ["Also tmx"]⟩ (by decide) (by decide)
  · exact c1_resolution_asymmetry.2 "x" "zzz" [⟨1, ["X"]⟩]
      [⟨3, ["Json files (*.json)"]⟩] ⟨2, ["x"]⟩ (by decide) (by decide)

/-- C5 counterexample: two capabilities both match the supplied filter
string case-insensitively, yet resolution does not report an error — it
silently returns the last match. -/
theorem c5_counterexample :
    filterMatch ⟨1, ["Tmx files (*.tmx)"]⟩ "tmx files (*.tmx)" = true ∧
    filterMatch ⟨2, ["TMX FILES (*.TMX)"]⟩ "tmx files (*.tmx)" = true ∧
    resolveWriter (some "tmx files (*.tmx)") "json"
      [⟨1, ["Tmx files (*.tmx)"]⟩, ⟨2, ["TMX FILES (*.TMX)"]⟩] none =
      .ok ⟨2, ["TMX FILES (*.TMX)"]⟩ :=
  ⟨rfl, rfl, rfl⟩

/-- C5 (amended): resolution returns at most one capability (a single
writer or an error); zero matches is a reported error on both paths; on
the suffix path more than one match is a reported error; on the filter
path several matches are silently resolved in favour of the last match
in registry iteration order. -/
theorem c5_selection_invariant :
    (∀ (suffix : String) (ws : List MapWriterInterface),
        (∀ w ∈ ws, suffixMatch w suffix = false) →
        resolveWriter none suffix ws none = .error .noWriterFound) ∧
    (∀ (suffix : String) (pre mid rest : List MapWriterInterface)
        (w1 w2 : MapWriterInterface),
        suffixMatch w1 suffix = true → suffixMatch w2 suffix = true →
        resolveWriter none suffix (pre ++ w1 :: mid ++ w2 :: rest) none =
          .error .ambiguousFormat) ∧
    (∀ (f suffix : String) (ws : List MapWriterInterface),
        (∀ w ∈ ws, filterMatch w f = false) →
        resolveWriter (some f) suffix ws none = .error .noWriterFound) ∧
    (∀ (f suffix : String) (ws rest : List MapWriterInterface)
        (w : MapWriterInterface),
        filterMatch w f = true →
        (∀ w' ∈ rest, filterMatch w' f = false) →
        resolveWriter (some f) suffix (ws ++ w :: rest) none = .ok w) := by
  refine ⟨?_, ?_, ?_, ?_⟩
  · intro suffix ws h
    exact resolve_suffix_no_match suffix ws none h
  · intro suffix pre mid rest w1 w2 h1 h2
    exact resolve_suffix_ambiguous suffix pre mid rest w1 w2 h1 h2
  · intro f suffix ws h
    exact resolve_filter_no_match f suffix ws none h
  · intro f suffix ws rest w hw hrest
    exact resolve_filter_last f suffix ws rest w none hw hrest

/-- Witness for the amended C5: an empty-match registry yields
`noWriterFound` on both paths at concrete inputs. -/
theorem c5_selection_invariant_witness :
    resolveWriter none "tmx" [⟨1, ["Json files (*.json)"]⟩] none =
      .error .noWriterFound ∧
    resolveWriter (some "lua") "tmx" [⟨1, ["Json files (*.json)"]⟩] none =
      .error .noWriterFound := by
  constructor
  · exact c5_selection_invariant.1 "tmx" [⟨1, ["Json files (*.json)"]⟩]
      (by decide)
  · exact c5_selection_invariant.2.2.1 "lua" "tmx"
      [⟨1, ["Json files (*.json)"]⟩] (by decide)

/-- C6: with three or more positional arguments the first is the format
filter, and two-argument invocations use no filter; a capability matches
a supplied filter iff the filter string occurs case-insensitively among
its declared name-filter patterns; and the target suffix is never
consulted on the filter path (the resolution outcome is independent of
the suffix, and a registry with no filter match fails with the
no-exporter diagnostic even when every writer matches the target
suffix). -/
theorem c6_filter_semantics :
    (∀ (env : ExportEnv) (f s t : String) (rest : List String),
        exportMode env (f :: s :: t :: rest) = exportRun env (some f) s t) ∧
    (∀ (env : ExportEnv) (s t : String),
        exportMode env [s, t] = exportRun env none s t) ∧
    (∀ (nfs : List String) (f : String),
        containsStrCI nfs f = true ↔ ∃ p ∈ nfs, lowerStr p = lowerStr f) ∧
    (∀ (f s1 s2 : String) (ws : List MapWriterInterface)
        (c : Option MapWriterInterface),
        resolveWriter (some f) s1 ws c = resolveWriter (some f) s2 ws c) ∧
    (∀ (env : ExportEnv) (f s t : String) (rest : List String),
        (∀ w ∈ env.writers, filterMatch w f = false) →
        exportMode env (f :: s :: t :: rest) = (1, [Ev.warn noExporterMsg])) := by
  refine ⟨?_, ?_, ?_, ?_, ?_⟩
  · intro env f s t rest; rfl
  · intro env s t; rfl
  · intro nfs f
    simp [containsStrCI, eqCI, List.any_eq_true]
  · intro f s1 s2 ws c
    exact resolve_filter_suffix_irrelevant f s1 s2 ws c
  · intro env f s t rest h
    have hr := resolve_filter_no_match f (completeSuffix t) env.writers none h
    simp [exportMode, exportRun, hr, resolveErrMsg]

/-- Witness for C6: a registry whose single writer matches the target
suffix `json` but not the filter string `TMX format` fails with the
no-exporter diagnostic on a four-argument invocation. -/
theorem c6_filter_semantics_witness :
    exportMode
      ⟨[⟨1, ["Json files (*.json)"]⟩],
       fun _ => some ⟨7, [3]⟩, fun _ _ _ => true⟩
      ["TMX format", "a.tmx", "b.json", "extra"] =
      (1, [Ev.warn noExporterMsg]) :=
  c6_filter_semantics.2.2.2.2
    ⟨[⟨1, ["Json files (*.json)"]⟩], fun _ => some ⟨7, [3]⟩, fun _ _ _ => true⟩
    "TMX format" "a.tmx" "b.json" ["extra"] (by decide)

/-- C3: the suffix used for writer matching is the complete dot-suffix
(everything after the first dot of the file name); for
`level1.tmx.bak` the suffix is `tmx.bak`, a writer declaring only the
pattern `*.tmx` does not match it, a writer declaring a pattern
containing `*.tmx.bak` does, and suffix resolution accordingly chooses
only the latter. -/
theorem c3_complete_suffix :
    (∀ (a b : List Char), '/' ∉ a → '/' ∉ b → '.' ∉ a →
        completeSuffix ⟨a ++ '.' :: b⟩ = ⟨b⟩) ∧
    completeSuffix "level1.tmx.bak" = "tmx.bak" ∧
    suffixMatch ⟨1, ["*.tmx"]⟩ (completeSuffix "level1.tmx.bak") = false ∧
    suffixMatch ⟨2, ["*.tmx.bak"]⟩ (completeSuffix "level1.tmx.bak") = true ∧
    resolveWriter none (completeSuffix "level1.tmx.bak")
      [⟨1, ["*.tmx"]⟩, ⟨2, ["*.tmx.bak"]⟩] none = .ok ⟨2, ["*.tmx.bak"]⟩ := by
  refine ⟨?_, by decide, by decide, by decide, rfl⟩
  intro a b ha hb hdot
  have hmem : '/' ∉ a ++ '.' :: b := by
    intro hm
    rcases List.mem_append.mp hm with h | h
    · exact ha h
    · rcases List.mem_cons.mp h with h | h
      · exact absurd h (by decide)
      · exact hb h
  unfold completeSuffix
  rw [fileNameOf_no_slash _ hmem, afterFirstDot_append b a hdot]

/-- Witness for C3 at a concrete dot-free stem and multi-part suffix. -/
theorem c3_complete_suffix_witness :
    completeSuffix ⟨['m', 'a', 'p'] ++ '.' :: ['t', 'm', 'x']⟩ =
      ⟨['t', 'm', 'x']⟩ :=
  c3_complete_suffix.1 ['m', 'a', 'p'] ['t', 'm', 'x']
    (by decide) (by decide) (by decide)

/-! ### Lemmas about the export pipeline -/

/-- Fewer than two positional arguments: the export branch reports the
syntax error. -/
lemma exportMode_short (env : ExportEnv) (files : List String)
    (h : files.length < 2) :
    exportMode env files = (1, [Ev.warn exportSyntaxMsg]) := by
  match files with
  | [] => rfl
  | [x] => rfl
  | a :: b :: l => simp at h; omega

/-- A resolution failure short-circuits the pipeline with the matching
diagnostic. -/
lemma exportRun_resolve_error (env : ExportEnv) (filter : Option String)
    (s t : String) (e : ResolveError)
    (h : resolveWriter filter (completeSuffix t) env.writers none = .error e) :
    exportRun env filter s t = (1, [Ev.warn (resolveErrMsg e)]) := by
  simp only [exportRun, h]

/-- A reader failure after successful resolution reports the load
error. -/
lemma exportRun_read_fail (env : ExportEnv) (filter : Option String)
    (s t : String) (w : MapWriterInterface)
    (h1 : resolveWriter filter (completeSuffix t) env.writers none = .ok w)
    (h2 : env.readMap s = none) :
    exportRun env filter s t = (1, [Ev.readSource s, Ev.warn loadFailMsg]) := by
  simp only [exportRun, h1, h2]

/-- A successful write releases the tile sets and the map and exits with
code 0. -/
lemma exportRun_write_ok (env : ExportEnv) (filter : Option String)
    (s t : String) (w : MapWriterInterface) (map : TiledMap)
    (h1 : resolveWriter filter (completeSuffix t) env.writers none = .ok w)
    (h2 : env.readMap s = some map)
    (h3 : env.writeOk w.id map t = true) :
    exportRun env filter s t =
      (0, [Ev.readSource s, Ev.writeTarget w.id t]
        ++ map.tilesets.map Ev.releaseTileset ++ [Ev.releaseMap map.id]) := by
  simp only [exportRun, h1, h2, h3, if_true]

/-- A failed write still releases the tile sets and the map, then
reports the export error and exits with code 1. -/
lemma exportRun_write_fail (env : ExportEnv) (filter : Option String)
    (s t : String) (w : MapWriterInterface) (map : TiledMap)
    (h1 : resolveWriter filter (completeSuffix t) env.writers none = .ok w)
    (h2 : env.readMap s = some map)
    (h3 : env.writeOk w.id map t = false) :
    exportRun env filter s t =
      (1, ([Ev.readSource s, Ev.writeTarget w.id t]
        ++ map.tilesets.map Ev.releaseTileset ++ [Ev.releaseMap map.id])
        ++ [Ev.warn writeFailMsg]) := by
  simp only [exportRun, h1, h2, h3, Bool.false_eq_true, if_false]

/-- Mapping tile-set releases never produces a map release. -/
lemma count_releaseMap_in_tilesets (l : List Nat) (m : Nat) :
    (l.map Ev.releaseTileset).count (Ev.releaseMap m) = 0 := by
  induction l with
  | nil => rfl
  | cons a as ih => simp [List.count_cons, ih]

/-- Counting one tile-set release among the mapped releases counts the
tile set in the owning list. -/
lemma count_releaseTileset_in_tilesets (l : List Nat) (ts : Nat) :
    (l.map Ev.releaseTileset).count (Ev.releaseTileset ts) = l.count ts := by
  induction l with
  | nil => rfl
  | cons a as ih => simp [List.count_cons, ih]

/-- C4: whenever the reader produced a map value, the pipeline trace
releases the map value exactly once and each tile-set resource it owns
exactly as often as the map owns it, on the write-success path and the
write-failure path alike (the quantified environment covers both write
outcomes). -/
theorem c4_release_once (env : ExportEnv) (filter : Option String)
    (src tgt : String) (w : MapWriterInterface) (map : TiledMap)
    (hres : resolveWriter filter (completeSuffix tgt) env.writers none = .ok w)
    (hread : env.readMap src = some map) :
    (exportRun env filter src tgt).2.count (Ev.releaseMap map.id) = 1 ∧
    ∀ ts : Nat,
      (exportRun env filter src tgt).2.count (Ev.releaseTileset ts) =
        map.tilesets.count ts := by
  by_cases hw : env.writeOk w.id map tgt = true
  · rw [exportRun_write_ok env filter src tgt w map hres hread hw]
    constructor
    · simp [List.count_append, List.count_cons,
        count_releaseMap_in_tilesets]
    · intro ts
      simp [List.count_append, List.count_cons,
        count_releaseTileset_in_tilesets]
  · rw [exportRun_write_fail env filter src tgt w map hres hread
      (by simpa using hw)]
    constructor
    · simp [List.count_append, List.count_cons,
        count_releaseMap_in_tilesets]
    · intro ts
      simp [List.count_append, List.count_cons,
        count_releaseTileset_in_tilesets]

/-- Witness for C4 on both write outcomes: a map owning tile sets 3 and
4 is released once, and tile set 3 once, whether the write succeeds or
fails. -/
theorem c4_release_once_witness :
    (exportRun ⟨[⟨1, ["Json files (*.json)"]⟩],
        fun _ => some ⟨7, [3, 4]⟩, fun _ _ _ => true⟩
      none "a.tmx" "b.json").2.count (Ev.releaseMap 7) = 1 ∧
    (exportRun ⟨[⟨1, ["Json files (*.json)"]⟩],
        fun _ => some ⟨7, [3, 4]⟩, fun _ _ _ => true⟩
      none "a.tmx" "b.json").2.count (Ev.releaseTileset 3) =
        ([3, 4] : List Nat).count 3 ∧
    (exportRun ⟨[⟨1, ["Json files (*.json)"]⟩],
        fun _ => some ⟨7, [3, 4]⟩, fun _ _ _ => false⟩
      none "a.tmx" "b.json").2.count (Ev.releaseMap 7) = 1 := by
  refine ⟨?_, ?_, ?_⟩
  · exact (c4_release_once
      ⟨[⟨1, ["Json files (*.json)"]⟩], fun _ => some ⟨7, [3, 4]⟩,
        fun _ _ _ => true⟩
      none "a.tmx" "b.json" ⟨1, ["Json files (*.json)"]⟩ ⟨7, [3, 4]⟩
      rfl rfl).1
  · exact (c4_release_once
      ⟨[⟨1, ["Json files (*.json)"]⟩], fun _ => some ⟨7, [3, 4]⟩,
        fun _ _ _ => true⟩
      none "a.tmx" "b.json" ⟨1, ["Json files (*.json)"]⟩ ⟨7, [3, 4]⟩
      rfl rfl).2 3
  · exact (c4_release_once
      ⟨[⟨1, ["Json files (*.json)"]⟩], fun _ => some ⟨7, [3, 4]⟩,
        fun _ _ _ => false⟩
      none "a.tmx" "b.json" ⟨1, ["Json files (*.json)"]⟩ ⟨7, [3, 4]⟩
      rfl rfl).1

/-- C9: an export run that fails during writer resolution (insufficient
positional arguments, ambiguous format or no writer found) exits with
code 1 and its trace holds nothing but a diagnostic message — the
reader is never invoked, no map value is created, nothing is released
and the target is never written. -/
theorem c9_resolution_failure_pure :
    (∀ (env : ExportEnv) (files : List String), files.length < 2 →
        (exportMode env files).1 = 1 ∧
        ∀ ev ∈ (exportMode env files).2, ∃ msg, ev = Ev.warn msg) ∧
    (∀ (env : ExportEnv) (filter : Option String) (s t : String)
        (e : ResolveError),
        resolveWriter filter (completeSuffix t) env.writers none = .error e →
        (exportRun env filter s t).1 = 1 ∧
        ∀ ev ∈ (exportRun env filter s t).2, ∃ msg, ev = Ev.warn msg) := by
  constructor
  · intro env files h
    rw [exportMode_short env files h]
    exact ⟨rfl, fun ev hev => ⟨exportSyntaxMsg, by simpa using hev⟩⟩
  · intro env filter s t e h
    rw [exportRun_resolve_error env filter s t e h]
    exact ⟨rfl, fun ev hev => ⟨resolveErrMsg e, by simpa using hev⟩⟩

/-- Witness for C9: a one-argument invocation and an empty registry each
exit with code 1. -/
theorem c9_resolution_failure_pure_witness :
    (exportMode ⟨[], fun _ => none, fun _ _ _ => false⟩ ["only.tmx"]).1 = 1 ∧
    (exportRun ⟨[], fun _ => none, fun _ _ _ => false⟩
      none "a.tmx" "b.json").1 = 1 := by
  constructor
  · exact (c9_resolution_failure_pure.1
      ⟨[], fun _ => none, fun _ _ _ => false⟩ ["only.tmx"] (by decide)).1
  · exact (c9_resolution_failure_pure.2
      ⟨[], fun _ => none, fun _ _ _ => false⟩ none "a.tmx" "b.json"
      .noWriterFound rfl).1

/-- C7: the process exit code is 0 when parsing fails or quit was
requested (which covers the version path, since the version flag
requests quit), and in export mode it is 1 on each pipeline failure —
insufficient positional arguments, any resolution error (ambiguous
format or no writer found after the whole registry), source load
failure, write failure — and 0 on success. -/
theorem c7_exit_codes :
    (∀ (env : ExportEnv) (n v : String) (g : Nat) (args : List String),
        parseTokens n v initHandler args = none →
        tiledMain env n v g args = (0, [])) ∧
    (∀ (env : ExportEnv) (n v : String) (g : Nat) (args : List String)
        (cl : CLState),
        parseTokens n v initHandler args = some cl → cl.quit = true →
        tiledMain env n v g args = (0, [])) ∧
    (∀ (env : ExportEnv) (files : List String),
        files.length < 2 → (exportMode env files).1 = 1) ∧
    (∀ (env : ExportEnv) (filter : Option String) (s t : String)
        (e : ResolveError),
        resolveWriter filter (completeSuffix t) env.writers none = .error e →
        (exportRun env filter s t).1 = 1) ∧
    (∀ (env : ExportEnv) (filter : Option String) (s t : String)
        (w : MapWriterInterface),
        resolveWriter filter (completeSuffix t) env.writers none = .ok w →
        env.readMap s = none → (exportRun env filter s t).1 = 1) ∧
    (∀ (env : ExportEnv) (filter : Option String) (s t : String)
        (w : MapWriterInterface) (map : TiledMap),
        resolveWriter filter (completeSuffix t) env.writers none = .ok w →
        env.readMap s = some map → env.writeOk w.id map t = false →
        (exportRun env filter s t).1 = 1) ∧
    (∀ (env : ExportEnv) (filter : Option String) (s t : String)
        (w : MapWriterInterface) (map : TiledMap),
        resolveWriter filter (completeSuffix t) env.writers none = .ok w →
        env.readMap s = some map → env.writeOk w.id map t = true →
        (exportRun env filter s t).1 = 0) := by
  refine ⟨?_, ?_, ?_, ?_, ?_, ?_, ?_⟩
  · intro env n v g args h
    simp [tiledMain, h]
  · intro env n v g args cl h hq
    simp [tiledMain, h, hq]
  · intro env files h
    rw [exportMode_short env files h]
  · intro env filter s t e h
    rw [exportRun_resolve_error env filter s t e h]
  · intro env filter s t w h1 h2
    rw [exportRun_read_fail env filter s t w h1 h2]
  · intro env filter s t w map h1 h2 h3
    rw [exportRun_write_fail env filter s t w map h1 h2 h3]
  · intro env filter s t w map h1 h2 h3
    rw [exportRun_write_ok env filter s t w map h1 h2 h3]

/-- Witness for C7: each exit-code branch at a concrete input — a
malformed flag and a quit flag exit 0, a short argument list, an empty
registry, a failing reader and a failing writer exit 1, and a complete
successful export exits 0. -/
theorem c7_exit_codes_witness :
    tiledMain ⟨[], fun _ => none, fun _ _ _ => false⟩ "Tiled" "0.12.0" 5
      ["--oops"] = (0, []) ∧
    tiledMain ⟨[], fun _ => none, fun _ _ _ => false⟩ "Tiled" "0.12.0" 5
      ["--quit"] = (0, []) ∧
    (exportMode ⟨[], fun _ => none, fun _ _ _ => false⟩ []).1 = 1 ∧
    (exportRun ⟨[], fun _ => none, fun _ _ _ => false⟩
      none "a.tmx" "b.json").1 = 1 ∧
    (exportRun ⟨[⟨1, ["Json files (*.json)"]⟩], fun _ => none,
        fun _ _ _ => false⟩ none "a.tmx" "b.json").1 = 1 ∧
    (exportRun ⟨[⟨1, ["Json files (*.json)"]⟩], fun _ => some ⟨7, [3]⟩,
        fun _ _ _ => false⟩ none "a.tmx" "b.json").1 = 1 ∧
    (exportRun ⟨[⟨1, ["Json files (*.json)"]⟩], fun _ => some ⟨7, [3]⟩,
        fun _ _ _ => true⟩ none "a.tmx" "b.json").1 = 0 := by
  refine ⟨?_, ?_, ?_, ?_, ?_, ?_, ?_⟩
  · exact c7_exit_codes.1 ⟨[], fun _ => none, fun _ _ _ => false⟩
      "Tiled" "0.12.0" 5 ["--oops"] rfl
  · exact c7_exit_codes.2.1 ⟨[], fun _ => none, fun _ _ _ => false⟩
      "Tiled" "0.12.0" 5 ["--quit"]
      { quit := true, showedVersion := false, disableOpenGL := false
        exportMap := false, filesToOpen := [], printed := [] } rfl rfl
  · exact c7_exit_codes.2.2.1 ⟨[], fun _ => none, fun _ _ _ => false⟩ []
      (by decide)
  · exact c7_exit_codes.2.2.2.1 ⟨[], fun _ => none, fun _ _ _ => false⟩
      none "a.tmx" "b.json" .noWriterFound rfl
  · exact c7_exit_codes.2.2.2.2.1
      ⟨[⟨1, ["Json files (*.json)"]⟩], fun _ => none, fun _ _ _ => false⟩
      none "a.tmx" "b.json" ⟨1, ["Json files (*.json)"]⟩ rfl rfl
  · exact c7_exit_codes.2.2.2.2.2.1
      ⟨[⟨1, ["Json files (*.json)"]⟩], fun _ => some ⟨7, [3]⟩,
        fun _ _ _ => false⟩
      none "a.tmx" "b.json" ⟨1, ["Json files (*.json)"]⟩ ⟨7, [3]⟩
      rfl rfl rfl
  · exact c7_exit_codes.2.2.2.2.2.2
      ⟨[⟨1, ["Json files (*.json)"]⟩], fun _ => some ⟨7, [3]⟩,
        fun _ _ _ => true⟩
      none "a.tmx" "b.json" ⟨1, ["Json files (*.json)"]⟩ ⟨7, [3]⟩
      rfl rfl rfl

/-- C8 counterexample: an export invocation with four positional
arguments — three remaining after removing the leading filter token —
is not treated as a user-input error: the extra argument is ignored and
the export succeeds with exit code 0. -/
theorem c8_counterexample :
    (["json files (*.json)", "a.tmx", "b.json", "extra.txt"] :
      List String).length = 4 ∧
    (exportMode ⟨[⟨1, ["Json files (*.json)"]⟩], fun _ => some ⟨7, [3]⟩,
        fun _ _ _ => true⟩
      ["json files (*.json)", "a.tmx", "b.json", "extra.txt"]).1 = 0 :=
  ⟨rfl, rfl⟩

/-- C8 (amended): in export mode, fewer than two positional arguments is
a user-input error; with exactly two they are source and target and
there is no filter; with three or more the first is the filter and the
next two are source and target, any additional positional arguments
being ignored rather than rejected. -/
theorem c8_positional_arguments :
    (∀ (env : ExportEnv) (files : List String), files.length < 2 →
        exportMode env files = (1, [Ev.warn exportSyntaxMsg])) ∧
    (∀ (env : ExportEnv) (s t : String),
        exportMode env [s, t] = exportRun env none s t) ∧
    (∀ (env : ExportEnv) (f s t : String) (rest : List String),
        exportMode env (f :: s :: t :: rest) = exportRun env (some f) s t) := by
  refine ⟨?_, ?_, ?_⟩
  · intro env files h
    exact exportMode_short env files h
  · intro env s t; rfl
  · intro env f s t rest; rfl

/-- Witness for the amended C8: the empty argument list reports the
syntax error. -/
theorem c8_positional_arguments_witness :
    exportMode ⟨[], fun _ => none, fun _ _ _ => false⟩ [] =
      (1, [Ev.warn exportSyntaxMsg]) :=
  c8_positional_arguments.1 ⟨[], fun _ => none, fun _ _ _ => false⟩ []
    (by decide)

/-! ### Lemmas about the command-line parser -/

/-- An unknown flag anywhere in the token list makes parsing fail, from
any handler state. -/
lemma parseTokens_unknown (n v : String) :
    ∀ (toks : List String) (s : CLState) (tok : String),
      tok ∈ toks → dashFlag tok = true → knownFlag tok = false →
      parseTokens n v s toks = none := by
  intro toks
  induction toks with
  | nil => intro s tok h _ _; cases h
  | cons a rest ih =>
    intro s tok hmem hdash hknown
    rcases List.mem_cons.mp hmem with rfl | hmem
    · simp only [knownFlag, Bool.or_eq_false_iff] at hknown
      obtain ⟨⟨⟨⟨h1, h2⟩, h3⟩, h4⟩, h5⟩ := hknown
      simp [parseTokens, h1, h2, h3, h4, h5, hdash]
    · simp only [parseTokens]
      split
      · exact ih _ tok hmem hdash hknown
      · split
        · exact ih _ tok hmem hdash hknown
        · split
          · exact ih _ tok hmem hdash hknown
          · split
            · exact ih _ tok hmem hdash hknown
            · split
              · rfl
              · exact ih _ tok hmem hdash hknown

/-- A second call to `showVersion` changes nothing. -/
lemma showVersion_already (n v : String) (s : CLState)
    (h : s.showedVersion = true) : showVersion n v s = s := by
  simp [showVersion, h]

/-- Once the version has been shown (with its line printed and quit
requested), parsing preserves that state of affairs. -/
lemma parseTokens_right (n v : String) :
    ∀ (toks : List String) (s cl : CLState),
      parseTokens n v s toks = some cl →
      s.showedVersion = true → s.printed = [n ++ " " ++ v] → s.quit = true →
      cl.showedVersion = true ∧ cl.printed = [n ++ " " ++ v] ∧
        cl.quit = true := by
  intro toks
  induction toks with
  | nil =>
    intro s cl hp h1 h2 h3
    simp only [parseTokens, Option.some.injEq] at hp
    subst hp
    exact ⟨h1, h2, h3⟩
  | cons a rest ih =>
    intro s cl hp h1 h2 h3
    simp only [parseTokens] at hp
    split at hp
    · rw [showVersion_already n v s h1] at hp
      exact ih s cl hp h1 h2 h3
    · split at hp
      · exact ih (justQuit s) cl hp h1 h2 rfl
      · split at hp
        · exact ih (setDisableOpenGL s) cl hp h1 h2 h3
        · split at hp
          · exact ih (setExportMap s) cl hp h1 h2 h3
          · split at hp
            · cases hp
            · exact ih _ cl hp h1 h2 h3

/-- From an initial-like state (version not yet shown, nothing printed),
a successful parse of a token list containing a version flag ends with
the version shown, the single version line printed and quit
requested. -/
lemma parseTokens_version (n v : String) :
    ∀ (toks : List String) (s cl : CLState),
      parseTokens n v s toks = some cl →
      s.showedVersion = false → s.printed = [] →
      ("-v" ∈ toks ∨ "--version" ∈ toks) →
      cl.showedVersion = true ∧ cl.printed = [n ++ " " ++ v] ∧
        cl.quit = true := by
  intro toks
  induction toks with
  | nil =>
    intro s cl _ _ _ hmem
    rcases hmem with h | h <;> cases h
  | cons a rest ih =>
    intro s cl hp h1 h2 hmem
    simp only [parseTokens] at hp
    by_cases hv : (a == "-v" || a == "--version") = true
    · rw [if_pos hv] at hp
      have hfields : (showVersion n v s).showedVersion = true ∧
          (showVersion n v s).printed = [n ++ " " ++ v] ∧
          (showVersion n v s).quit = true := by
        simp [showVersion, h1, h2]
      exact parseTokens_right n v rest _ cl hp hfields.1 hfields.2.1
        hfields.2.2
    · rw [if_neg hv] at hp
      have hmem' : "-v" ∈ rest ∨ "--version" ∈ rest := by
        simp only [Bool.or_eq_true, beq_iff_eq] at hv
        push_neg at hv
        rcases hmem with h | h
        · rcases List.mem_cons.mp h with h | h
          · exact absurd h.symm hv.1
          · exact Or.inl h
        · rcases List.mem_cons.mp h with h | h
          · exact absurd h.symm hv.2
          · exact Or.inr h
      split at hp
      · exact ih (justQuit s) cl hp h1 h2 hmem'
      · split at hp
        · exact ih (setDisableOpenGL s) cl hp h1 h2 hmem'
        · split at hp
          · exact ih (setExportMap s) cl hp h1 h2 hmem'
          · split at hp
            · cases hp
            · exact ih _ cl hp h1 h2 hmem'

/-- C2 counterexample: on an argument sequence containing the unknown
flag `--bogus`, parsing fails, but `main` returns exit status 0 — not a
non-zero status as claimed (it still proceeds neither to export nor to
GUI startup: the trace is empty). -/
theorem c2_counterexample :
    parseTokens "Tiled" "0.12.0" initHandler
      ["--export-map", "--bogus", "a.tmx", "b.json"] = none ∧
    tiledMain ⟨[⟨1, ["Json files (*.json)"]⟩], fun _ => some ⟨7, [3]⟩,
        fun _ _ _ => true⟩ "Tiled" "0.12.0" 5
      ["--export-map", "--bogus", "a.tmx", "b.json"] = (0, []) :=
  ⟨rfl, rfl⟩

/-- C2 (amended): for every argument sequence containing an unknown
flag, argument parsing fails with the malformed-arguments condition and
the process exits with status 0 (the parse-failure branch of `main`
returns 0, not a non-zero status) without proceeding to export or GUI
startup — the trace of the run is empty. -/
theorem c2_unknown_flag (env : ExportEnv) (n v : String) (g : Nat)
    (args : List String) (tok : String)
    (hmem : tok ∈ args) (hdash : dashFlag tok = true)
    (hknown : knownFlag tok = false) :
    parseTokens n v initHandler args = none ∧
    tiledMain env n v g args = (0, []) := by
  have hp := parseTokens_unknown n v args initHandler tok hmem hdash hknown
  exact ⟨hp, by simp [tiledMain, hp]⟩

/-- Witness for the amended C2 at a concrete unknown flag. -/
theorem c2_unknown_flag_witness :
    parseTokens "Tiled" "0.12.0" initHandler ["--nogui", "x.tmx"] = none ∧
    tiledMain ⟨[], fun _ => none, fun _ _ _ => false⟩ "Tiled" "0.12.0" 5
      ["--nogui", "x.tmx"] = (0, []) :=
  c2_unknown_flag ⟨[], fun _ => none, fun _ _ _ => false⟩ "Tiled" "0.12.0" 5
    ["--nogui", "x.tmx"] "--nogui" (by decide) (by decide) (by decide)

/-- C10: the version-display flag is idempotent — `showVersion` applied
twice equals `showVersion` applied once, so occurrences beyond the
first have no effect — and any successfully parsed argument sequence
containing the flag ends with quit requested and the application name
and version printed exactly once. -/
theorem c10_version_idempotent :
    (∀ (n v : String) (s : CLState),
        showVersion n v (showVersion n v s) = showVersion n v s) ∧
    (∀ (n v : String) (args : List String) (cl : CLState),
        parseTokens n v initHandler args = some cl →
        ("-v" ∈ args ∨ "--version" ∈ args) →
        cl.quit = true ∧ cl.printed = [n ++ " " ++ v]) := by
  constructor
  · intro n v s
    by_cases h : s.showedVersion = true
    · rw [showVersion_already n v s h, showVersion_already n v s h]
    · have h1 : (showVersion n v s).showedVersion = true := by
        simp [showVersion, eq_false_of_ne_true h]
      exact showVersion_already n v _ h1
  · intro n v args cl hp hmem
    have h := parseTokens_version n v args initHandler cl hp rfl rfl hmem
    exact ⟨h.2.2, h.2.1⟩

/-- Witness for C10: parsing `-v --version a.tmx` prints the version
line once and requests quit. -/
theorem c10_version_idempotent_witness :
    ({ quit := true, showedVersion := true, disableOpenGL := false
       exportMap := false, filesToOpen := ["a.tmx"]
       printed := ["Tiled 0.12.0"] } : CLState).quit = true ∧
    ({ quit := true, showedVersion := true, disableOpenGL := false
       exportMap := false, filesToOpen := ["a.tmx"]
       printed := ["Tiled 0.12.0"] } : CLState).printed =
      ["Tiled" ++ " " ++ "0.12.0"] :=
  c10_version_idempotent.2 "Tiled" "0.12.0" ["-v", "--version", "a.tmx"]
    { quit := true, showedVersion := true, disableOpenGL := false
      exportMap := false, filesToOpen := ["a.tmx"]
      printed := ["Tiled 0.12.0"] }
    (by decide) (Or.inl (by decide))
